import Mathlib

/-!
# gmail-cli: account resolution, credential lifecycle, retry executor

A shallow embedding of the credential store (`services/credentials.py`),
the account resolver and token lifecycle (`services/auth.py`), and the
remote-call retry executor (`services/gmail.py`) of the gmail-cli
repository, together with theorems settling the spec's claims about them.

Modelling conventions:
* The system keyring is a record of the four kinds of entries the code
  uses: one credential record per account (an association list keyed by
  email), the legacy single-account record, the JSON accounts list, and
  the default-account pointer.  `none` for the accounts list means the
  keyring key is absent; `some l` means the key holds the JSON encoding
  of `l` (a JSON dump of a list is never the empty string, so Python
  truthiness of the raw value coincides with `isSome`, and decoding a
  value this code wrote never fails).
* Python truthiness of an optional string (`if account:`) is `strTruthy`:
  false exactly on `None` and the empty string.
* A stored credential is modelled by the fields the code branches on:
  the access token, the refresh token, and the `expired` flag (in the
  source a comparison of the stored expiry against the clock; here a
  field, so theorems quantify over both outcomes).  `valid` is derived
  as in google-auth: a token is present and not expired.
* Ambient inputs (the `GMAIL_ACCOUNT` environment variable, the network
  outcome of a refresh call, the profile email looked up during legacy
  migration) are explicit oracle parameters.
-/

namespace GmailCli

/-- Python truthiness of an optional string: `None` and `""` are falsy. -/
def strTruthy : Option String → Bool
  | none => false
  | some s => decide (s ≠ "")

/-- A stored OAuth credential record, reduced to the fields the embedded
code reads: access token, refresh token, and whether the access token is
expired at the time of the call. -/
structure Cred where
  token : Option String
  refreshToken : Option String
  expired : Bool
  deriving Repr, DecidableEq

/-- `google.oauth2.credentials.Credentials.valid`: a token is present and
not expired. -/
def Cred.valid (c : Cred) : Bool :=
  c.token.isSome && !c.expired

/-- Keyed lookup in an association list (keyring `get_password`). -/
def getKey (l : List (String × Cred)) (k : String) : Option Cred :=
  match l with
  | [] => none
  | (k0, v0) :: rest => if k0 = k then some v0 else getKey rest k

/-- Keyed overwrite/insert in an association list (keyring `set_password`). -/
def setKey (l : List (String × Cred)) (k : String) (v : Cred) : List (String × Cred) :=
  match l with
  | [] => [(k, v)]
  | (k0, v0) :: rest => if k0 = k then (k, v) :: rest else (k0, v0) :: setKey rest k v

/-- Keyed removal from an association list (keyring `delete_password` of a
present key; the keyring holds at most one entry per key). -/
def eraseKey (l : List (String × Cred)) (k : String) : List (String × Cred) :=
  l.filter (fun p => p.1 != k)

/-- The persistent keyring state the code reads and writes: per-account
credential records (under `oauth_<email>` keys), the legacy
single-account record (`oauth_credentials`), the accounts registry
(`accounts_list`, `none` = key absent), and the default-account pointer
(`default_account`). -/
structure Store where
  records : List (String × Cred)
  legacy : Option Cred
  accountsList : Option (List String)
  defaultAccount : Option String
  deriving Repr, DecidableEq

/-- The keyring with nothing stored. -/
def emptyStore : Store :=
  { records := [], legacy := none, accountsList := none, defaultAccount := none }

/-- `credentials.list_accounts`: decode the stored registry; absent key
(or undecodable value, unreachable for values this code writes) gives the
empty list. -/
def list_accounts (s : Store) : List String :=
  match s.accountsList with
  | none => []
  | some l => l

/-- `credentials.get_default_account`. -/
def get_default_account (s : Store) : Option String :=
  s.defaultAccount

/-- `credentials.set_default_account`: unconditional overwrite. -/
def set_default_account (a : String) (s : Store) : Store :=
  { s with defaultAccount := some a }

/-- `credentials._add_to_accounts_list`: append if absent, else no write. -/
def add_to_accounts_list (a : String) (s : Store) : Store :=
  let accounts := list_accounts s
  if a ∈ accounts then s
  else { s with accountsList := some (accounts ++ [a]) }

/-- `credentials._remove_from_accounts_list`: remove the (first)
occurrence if present, else no write. -/
def remove_from_accounts_list (a : String) (s : Store) : Store :=
  let accounts := list_accounts s
  if a ∈ accounts then { s with accountsList := some (accounts.erase a) }
  else s

/-- `credentials.save_credentials`: with a truthy account, upsert the
record, register the account, and set it as default when the registry
afterwards has exactly one entry; otherwise write the legacy record. -/
def save_credentials (c : Cred) (account : Option String) (s : Store) : Store :=
  if strTruthy account then
    let a := account.getD ""
    let s1 := { s with records := setKey s.records a c }
    let s2 := add_to_accounts_list a s1
    if (list_accounts s2).length = 1 then set_default_account a s2 else s2
  else
    { s with legacy := some c }

/-- `credentials.load_credentials`: read the record under the account key
(or the legacy key when the account is falsy); absent key gives `none`
(decoding a value this code wrote never fails). -/
def load_credentials (account : Option String) (s : Store) : Option Cred :=
  if strTruthy account then getKey s.records (account.getD "")
  else s.legacy

/-- The `Update default if deleted account was default` block of
`delete_credentials`: when the default pointer names the deleted
account, repoint it at the first remaining registered account, or drop
the default key (absence of the key swallowed) when none remain. -/
def reassign_default_after_delete (a : String) (s2 : Store) : Store :=
  if s2.defaultAccount = some a then
    match list_accounts s2 with
    | [] => { s2 with defaultAccount := none }
    | b :: _ => set_default_account b s2
  else s2

/-- `credentials.delete_credentials`: with a truthy account, delete the
record — when the record key is absent the keyring raises
`PasswordDeleteError`, the outer handler swallows it, and nothing else
runs — then drop the registry entry, and when the deleted account was the
default reassign it to the first remaining account or clear it.  With a
falsy account, delete the legacy record (absence likewise swallowed). -/
def delete_credentials (account : Option String) (s : Store) : Store :=
  if strTruthy account then
    let a := account.getD ""
    match getKey s.records a with
    | none => s
    | some _ =>
      reassign_default_after_delete a
        (remove_from_accounts_list a { s with records := eraseKey s.records a })
  else
    { s with legacy := none }

/-- `credentials.migrate_legacy_credentials`, with the profile email the
network lookup would return passed as the oracle `migEmail`.  No legacy
record: no-op.  Registry key already present: drop the legacy record
only.  Otherwise, with a truthy oracle email, save the legacy record
under that email, set it as default, and drop the legacy key. -/
def migrate_legacy_credentials (migEmail : Option String) (s : Store) : Store × Bool :=
  match s.legacy with
  | none => (s, false)
  | some c =>
    if s.accountsList.isSome then ({ s with legacy := none }, false)
    else if strTruthy migEmail then
      let e := migEmail.getD ""
      let s1 := save_credentials c (some e) s
      let s2 := set_default_account e s1
      ({ s2 with legacy := none }, true)
    else (s, false)

/-- The two failures of `auth.resolve_account`:
`AccountNotFoundError(account, available)` and `NoAccountConfiguredError`. -/
inductive ResolveErr where
  | accountNotFound (account : String) (available : List String)
  | noAccountConfigured
  deriving Repr, DecidableEq

/-- The fall-through tail of `auth.resolve_account` (lines 82-86):
return the first registered account, else raise
`NoAccountConfiguredError`. -/
def first_available (accounts : List String) : Except ResolveErr String :=
  match accounts with
  | a :: _ => .ok a
  | [] => .error .noAccountConfigured

/-- `auth.resolve_account`, with the `GMAIL_ACCOUNT` environment variable
passed as `env`.  Priority: truthy explicit flag, truthy environment
variable (each raising `AccountNotFoundError` when unregistered), then
the stored default when truthy and registered, then the first registered
account, else `NoAccountConfiguredError`. -/
def resolve_account (env : Option String) (explicit_account : Option String)
    (s : Store) : Except ResolveErr String :=
  let accounts := list_accounts s
  if strTruthy explicit_account then
    let e := explicit_account.getD ""
    if e ∈ accounts then .ok e else .error (.accountNotFound e accounts)
  else if strTruthy env then
    let e := env.getD ""
    if e ∈ accounts then .ok e else .error (.accountNotFound e accounts)
  else
    match get_default_account s with
    | some d => if d ≠ "" ∧ d ∈ accounts then .ok d else first_available accounts
    | none => first_available accounts

/-- `auth.get_credentials`, returning the produced credential (or `none`)
together with the keyring state after the call.  Oracles: `migEmail` is
the profile email a legacy migration would resolve, `refreshRes` the
outcome of a refresh call (`none` = the call raises), `env` the
`GMAIL_ACCOUNT` environment variable.  Steps, as in the source: run the
legacy migration; when the account argument is `None` (the Python check
is `is None`, not truthiness) resolve it, mapping both resolver errors to
`none`; load the record, absent giving `none`; when the record is expired
and holds a truthy refresh token, refresh — persisting the result on
success, deleting the account's credentials and returning `none` on
failure; otherwise return the record unchanged. -/
def get_credentials (migEmail : Option String) (refreshRes : Option Cred)
    (env : Option String) (account : Option String) (s : Store) :
    Option Cred × Store :=
  let s0 := (migrate_legacy_credentials migEmail s).1
  let acct? : Option String :=
    match account with
    | none =>
      match resolve_account env none s0 with
      | .ok a => some a
      | .error _ => none
    | some a => some a
  match acct? with
  | none => (none, s0)
  | some a =>
    match load_credentials (some a) s0 with
    | none => (none, s0)
    | some c =>
      if c.expired && strTruthy c.refreshToken then
        match refreshRes with
        | some c1 => (some c1, save_credentials c1 (some a) s0)
        | none => (none, delete_credentials (some a) s0)
      else (some c, s0)

/-- `auth.is_authenticated`: with a truthy account, produce credentials
for it and test `valid`; with a falsy account, read the registry and test
the FIRST registered account (returning false on an empty registry). -/
def is_authenticated (migEmail : Option String) (refreshRes : Option Cred)
    (env : Option String) (account : Option String) (s : Store) : Bool × Store :=
  if strTruthy account then
    let r := get_credentials migEmail refreshRes env account s
    (match r.1 with
     | some c => c.valid
     | none => false, r.2)
  else
    match list_accounts s with
    | [] => (false, s)
    | a :: _ =>
      let r := get_credentials migEmail refreshRes env (some a) s
      (match r.1 with
       | some c => c.valid
       | none => false, r.2)

/-! ## Remote-call retry executor (`services/gmail.py`) -/

/-- What one execution of the remote request does: a successful response,
an HTTP 429 rate-limit error, a `RefreshError` (auth invalid), or any
other `HttpError`. -/
inductive Outcome where
  | ok (v : Nat)
  | rateLimited
  | authInvalid
  | httpFail
  deriving Repr, DecidableEq

/-- What `_execute_with_retry` terminates with: the successful response,
a raised `TokenExpiredError`, or a propagated `HttpError` (tagged with
the outcome that raised it). -/
inductive ExecResult where
  | success (v : Nat)
  | tokenExpired
  | httpError (o : Outcome)
  deriving Repr, DecidableEq

/-- Observable behaviour of one `_execute_with_retry` run: how it ended,
how many times the request was executed, and the backoff sleeps (in
seconds) in order. -/
structure ExecTrace where
  result : ExecResult
  attempts : Nat
  sleeps : List Nat
  deriving Repr, DecidableEq

/-- `gmail.MAX_RETRIES`. -/
def MAX_RETRIES : Nat := 3

/-- `gmail.BASE_DELAY` (seconds). -/
def BASE_DELAY : Nat := 1

/-- The `for attempt in range(MAX_RETRIES)` loop of
`_execute_with_retry`, with `remaining` loop iterations left, followed by
the final attempt outside the loop.  In the loop: success returns,
`RefreshError` raises `TokenExpiredError`, HTTP 429 sleeps
`BASE_DELAY * 2 ^ attempt` and retries, any other `HttpError` propagates.
The final attempt converts `RefreshError` to `TokenExpiredError` and lets
every `HttpError` (429 included) propagate. -/
def retryGo (f : Nat → Outcome) : Nat → Nat → List Nat → ExecTrace
  | 0, attempt, sleeps =>
    match f attempt with
    | .ok v => ⟨.success v, attempt + 1, sleeps⟩
    | .authInvalid => ⟨.tokenExpired, attempt + 1, sleeps⟩
    | .rateLimited => ⟨.httpError .rateLimited, attempt + 1, sleeps⟩
    | .httpFail => ⟨.httpError .httpFail, attempt + 1, sleeps⟩
  | remaining + 1, attempt, sleeps =>
    match f attempt with
    | .ok v => ⟨.success v, attempt + 1, sleeps⟩
    | .authInvalid => ⟨.tokenExpired, attempt + 1, sleeps⟩
    | .rateLimited =>
      retryGo f remaining (attempt + 1) (sleeps ++ [BASE_DELAY * 2 ^ attempt])
    | .httpFail => ⟨.httpError .httpFail, attempt + 1, sleeps⟩

/-- `gmail._execute_with_retry`, with `f n` the outcome of the n-th
execution of the request (0-based). -/
def execute_with_retry (f : Nat → Outcome) : ExecTrace :=
  retryGo f MAX_RETRIES 0 []

/-! ## Spec-side reference definitions -/

/-- One step of first-save-order accumulation: register an identity at
the end unless it is already present. -/
def registerStep (acc : List String) (a : String) : List String :=
  if a ∈ acc then acc else acc ++ [a]

/-- Spec §8: the identities of a save sequence in first-save order, each
exactly once.  Stated from the spec's words, to be compared with
`list_accounts` after a fold of `save_credentials`. -/
def firstSaveOrder (ids : List String) : List String :=
  ids.foldl registerStep []

/-- A sequence of `save_credentials` calls applied to a store. -/
def applySaves (seq : List (String × Cred)) (s : Store) : Store :=
  seq.foldl (fun st p => save_credentials p.2 (some p.1) st) s

/-! ## Helper lemmas -/

theorem strTruthy_some_of_ne {a : String} (h : a ≠ "") : strTruthy (some a) = true := by
  simp [strTruthy, h]

theorem getKey_eraseKey (l : List (String × Cred)) (k : String) :
    getKey (eraseKey l k) k = none := by
  induction l with
  | nil => rfl
  | cons p rest ih =>
    by_cases h : p.1 = k
    · simpa [eraseKey, List.filter_cons, h] using ih
    · simpa [eraseKey, List.filter_cons, h, getKey] using ih

theorem list_accounts_records (s : Store) (r : List (String × Cred)) :
    list_accounts { s with records := r } = list_accounts s := rfl

theorem list_accounts_set_default (s : Store) (a : String) :
    list_accounts (set_default_account a s) = list_accounts s := rfl

theorem save_credentials_accounts (c : Cred) {a : String} (ha : a ≠ "") (s : Store) :
    list_accounts (save_credentials c (some a) s) =
      if a ∈ list_accounts s then list_accounts s else list_accounts s ++ [a] := by
  by_cases hm : a ∈ list_accounts s <;>
    simp [save_credentials, strTruthy_some_of_ne ha, add_to_accounts_list,
      list_accounts_records, hm, list_accounts_set_default] <;>
    split <;> simp [list_accounts, set_default_account]

theorem save_credentials_default (c : Cred) {a : String} (ha : a ≠ "") (s : Store) :
    (save_credentials c (some a) s).defaultAccount =
      if (list_accounts (save_credentials c (some a) s)).length = 1 then some a
      else s.defaultAccount := by
  rw [save_credentials_accounts c ha s]
  by_cases hm : a ∈ list_accounts s <;>
    simp [save_credentials, strTruthy_some_of_ne ha, add_to_accounts_list,
      list_accounts_records, hm, list_accounts_set_default] <;>
    split <;> simp_all [list_accounts, set_default_account]

/-! ## Claims about the retry executor -/

/-- C2 (counterexample): a request that is rate-limited on every
execution is attempted 4 times, not at most 3 — the `MAX_RETRIES = 3`
loop iterations (each sleeping 1, 2, then 4 seconds) are followed by one
more attempt outside the loop, whose rate-limit error propagates. -/
theorem C2_retry_attempt_ceiling_cex :
    (execute_with_retry (fun _ => .rateLimited)).attempts = 4
    ∧ ¬ (execute_with_retry (fun _ => .rateLimited)).attempts ≤ 3
    ∧ (execute_with_retry (fun _ => .rateLimited)).sleeps = [1, 2, 4]
    ∧ (execute_with_retry (fun _ => .rateLimited)).result = .httpError .rateLimited := by
  decide

/-- C2 (amended): the remote-call executor attempts a request at most 4
times in total: each of the first three rate-limit signals puts it to
sleep with exponential backoff (`BASE_DELAY * 2 ^ attempt`, doubling per
attempt) before a retry, and when all three loop attempts were
rate-limited the outcome of the fourth and final attempt propagates
uncaught (with an auth-invalid signal still converted to
`TokenExpired`). -/
theorem C2_retry_attempt_ceiling (f : Nat → Outcome) :
    1 ≤ (execute_with_retry f).attempts
    ∧ (execute_with_retry f).attempts ≤ 4
    ∧ (execute_with_retry f).sleeps =
        (List.range ((execute_with_retry f).attempts - 1)).map
          (fun i => BASE_DELAY * 2 ^ i)
    ∧ ((execute_with_retry f).attempts = 4 →
        (∀ v, f 3 = .ok v → (execute_with_retry f).result = .success v)
        ∧ (f 3 = .authInvalid → (execute_with_retry f).result = .tokenExpired)
        ∧ (f 3 = .rateLimited →
            (execute_with_retry f).result = .httpError .rateLimited)
        ∧ (f 3 = .httpFail → (execute_with_retry f).result = .httpError .httpFail)) := by
  rcases h0 : f 0 <;> rcases h1 : f 1 <;> rcases h2 : f 2 <;> rcases h3 : f 3 <;>
    simp [execute_with_retry, retryGo, MAX_RETRIES, BASE_DELAY, h0, h1, h2, h3,
      List.range_succ]

/-- C2 (witness): the all-rate-limited request instantiates the amended
bound: 4 attempts, backoff sleeps 1, 2, 4, final failure propagated. -/
theorem C2_retry_attempt_ceiling_witness :
    (execute_with_retry (fun _ => Outcome.rateLimited)).attempts = 4
    ∧ (execute_with_retry (fun _ => Outcome.rateLimited)).result =
        .httpError .rateLimited := by
  refine ⟨?_, ?_⟩
  · have h := (C2_retry_attempt_ceiling (fun _ => Outcome.rateLimited)).2.2.2
    decide
  · exact ((C2_retry_attempt_ceiling (fun _ => Outcome.rateLimited)).2.2.2
      (by decide)).2.2.1 rfl

/-- C3: a request whose first execution raises the auth-invalid signal
(`RefreshError`) makes the executor raise `TokenExpired` at once: one
execution, zero retries, no backoff sleep. -/
theorem C3_auth_invalid_immediate (f : Nat → Outcome) (h : f 0 = .authInvalid) :
    execute_with_retry f = ⟨.tokenExpired, 1, []⟩ := by
  simp [execute_with_retry, retryGo, MAX_RETRIES, h]

/-- C3 (witness): the immediately-auth-invalid request. -/
theorem C3_auth_invalid_immediate_witness :
    execute_with_retry (fun _ => Outcome.authInvalid) = ⟨.tokenExpired, 1, []⟩ :=
  C3_auth_invalid_immediate (fun _ => Outcome.authInvalid) rfl

/-- C8: a request rate-limited on its first two executions and
successful on the third makes the executor return the success after
exactly 3 attempts, having slept exactly twice with strictly increasing
delays (1 second, then 2). -/
theorem C8_rate_limit_then_success (f : Nat → Outcome) (v : Nat)
    (h0 : f 0 = .rateLimited) (h1 : f 1 = .rateLimited) (h2 : f 2 = .ok v) :
    execute_with_retry f =
      ⟨.success v, 3, [BASE_DELAY * 2 ^ 0, BASE_DELAY * 2 ^ 1]⟩
    ∧ BASE_DELAY * 2 ^ 0 < BASE_DELAY * 2 ^ 1 := by
  refine ⟨?_, by decide⟩
  simp [execute_with_retry, retryGo, MAX_RETRIES, BASE_DELAY, h0, h1, h2]

/-- C8 (witness): the twice-rate-limited request succeeding with value 7
on the third execution. -/
theorem C8_rate_limit_then_success_witness :
    execute_with_retry (fun n => if n < 2 then Outcome.rateLimited else Outcome.ok 7) =
      ⟨.success 7, 3, [1, 2]⟩ := by
  have h := C8_rate_limit_then_success
    (fun n => if n < 2 then Outcome.rateLimited else Outcome.ok 7) 7
    (by decide) (by decide) (by decide)
  simpa using h.1

/-! ## Claims about the credential store -/

/-- C10: when no credential record is stored under an identity's key,
`delete_credentials` for that identity is a complete no-op — in
particular the accounts registry and the default-account pointer are
unchanged — even when the identity is still present in the registry: the
keyring's missing-record error short-circuits registry removal and
default reassignment. -/
theorem C10_delete_missing_record_frame (a : String) (s : Store)
    (ha : a ≠ "") (h : getKey s.records a = none) :
    delete_credentials (some a) s = s
    ∧ (delete_credentials (some a) s).accountsList = s.accountsList
    ∧ (delete_credentials (some a) s).defaultAccount = s.defaultAccount := by
  have hd : delete_credentials (some a) s = s := by
    simp [delete_credentials, strTruthy_some_of_ne ha, h]
  exact ⟨hd, by rw [hd], by rw [hd]⟩

/-- C10 (witness): deleting an identity that is registered but has no
stored record leaves the store — registry entry included — untouched. -/
theorem C10_delete_missing_record_frame_witness :
    delete_credentials (some "a@x.com")
        ⟨[], none, some ["a@x.com"], some "a@x.com"⟩ =
      ⟨[], none, some ["a@x.com"], some "a@x.com"⟩ :=
  (C10_delete_missing_record_frame "a@x.com"
    ⟨[], none, some ["a@x.com"], some "a@x.com"⟩ (by decide) rfl).1

/-- C5: saving the first-ever registered account (empty registry) sets
it as default, and saving a further, not-yet-registered account into a
nonempty registry leaves the existing default untouched. -/
theorem C5_save_default_assignment (c : Cred) (a : String) (ha : a ≠ "")
    (s : Store) :
    (list_accounts s = [] →
      (save_credentials c (some a) s).defaultAccount = some a)
    ∧ (∀ d, s.defaultAccount = some d → list_accounts s ≠ [] →
        a ∉ list_accounts s →
        (save_credentials c (some a) s).defaultAccount = some d) := by
  constructor
  · intro hacc
    rw [save_credentials_default c ha s, save_credentials_accounts c ha s]
    simp [hacc]
  · intro d hd hne hnm
    rw [save_credentials_default c ha s, save_credentials_accounts c ha s]
    have hlen : (list_accounts s ++ [a]).length ≠ 1 := by
      cases hl : list_accounts s with
      | nil => exact absurd hl hne
      | cons x xs => simp
    rw [if_neg hnm, if_neg hlen]
    exact hd

/-- C5 (witness): saving `a@x.com` into an empty store makes it default;
saving `b@x.com` next leaves `a@x.com` the default. -/
theorem C5_save_default_assignment_witness :
    (save_credentials ⟨none, none, false⟩ (some "a@x.com") emptyStore).defaultAccount
        = some "a@x.com"
    ∧ (save_credentials ⟨none, none, false⟩ (some "b@x.com")
          ⟨[("a@x.com", ⟨none, none, false⟩)], none, some ["a@x.com"],
            some "a@x.com"⟩).defaultAccount = some "a@x.com" :=
  ⟨(C5_save_default_assignment ⟨none, none, false⟩ "a@x.com" (by decide)
      emptyStore).1 rfl,
   (C5_save_default_assignment ⟨none, none, false⟩ "b@x.com" (by decide)
      ⟨[("a@x.com", ⟨none, none, false⟩)], none, some ["a@x.com"],
        some "a@x.com"⟩).2 "a@x.com" rfl (by decide) (by decide)⟩

/-- After a whole sequence of saves the registry is the first-occurrence
fold of the saved identities, continued from the starting registry. -/
theorem applySaves_accounts (seq : List (String × Cred)) (s : Store)
    (h : ∀ p ∈ seq, p.1 ≠ "") :
    list_accounts (applySaves seq s) =
      (seq.map Prod.fst).foldl registerStep (list_accounts s) := by
  induction seq generalizing s with
  | nil => rfl
  | cons p rest ih =>
    have hp : p.1 ≠ "" := h p (by simp)
    have hr : ∀ q ∈ rest, q.1 ≠ "" := fun q hq => h q (by simp [hq])
    show list_accounts (applySaves rest (save_credentials p.2 (some p.1) s)) = _
    rw [ih (save_credentials p.2 (some p.1) s) hr,
      save_credentials_accounts p.2 hp s]
    rfl

/-- `registerStep` folds preserve freedom from duplicates. -/
theorem foldl_registerStep_nodup (ids : List String) :
    ∀ acc : List String, acc.Nodup → (ids.foldl registerStep acc).Nodup := by
  induction ids with
  | nil => exact fun acc h => h
  | cons a rest ih =>
    intro acc hacc
    by_cases hm : a ∈ acc
    · simpa [registerStep, hm] using ih acc hacc
    · have hstep : List.foldl registerStep acc (a :: rest)
          = List.foldl registerStep (acc ++ [a]) rest := by
        simp [registerStep, hm]
      rw [hstep]
      exact ih (acc ++ [a]) (by simp [List.nodup_append, hacc, hm])

/-- C7: for every sequence of `save_credentials` calls from the empty
store, `list_accounts` returns the saved identities in first-save order,
each exactly once regardless of repeated saves; `list_accounts` is total
and returns the empty sequence on the empty store. -/
theorem C7_list_accounts_first_save_order (seq : List (String × Cred))
    (h : ∀ p ∈ seq, p.1 ≠ "") :
    list_accounts (applySaves seq emptyStore) = firstSaveOrder (seq.map Prod.fst)
    ∧ (list_accounts (applySaves seq emptyStore)).Nodup
    ∧ list_accounts emptyStore = [] := by
  have hmain : list_accounts (applySaves seq emptyStore)
      = firstSaveOrder (seq.map Prod.fst) :=
    applySaves_accounts seq emptyStore h
  refine ⟨hmain, ?_, rfl⟩
  rw [hmain]
  exact foldl_registerStep_nodup (seq.map Prod.fst) [] List.nodup_nil

/-- C7 (witness): saving a, b, then a again registers exactly
`[a, b]`. -/
theorem C7_list_accounts_first_save_order_witness :
    list_accounts (applySaves
        [("a@x.com", ⟨none, none, false⟩), ("b@x.com", ⟨none, none, false⟩),
          ("a@x.com", ⟨none, none, true⟩)] emptyStore)
      = ["a@x.com", "b@x.com"] := by
  have h := (C7_list_accounts_first_save_order
    [("a@x.com", ⟨none, none, false⟩), ("b@x.com", ⟨none, none, false⟩),
      ("a@x.com", ⟨none, none, true⟩)] (by decide)).1
  rw [h]
  decide

theorem remove_from_accounts_list_records (a : String) (s : Store) :
    (remove_from_accounts_list a s).records = s.records := by
  by_cases hm : a ∈ list_accounts s <;> simp [remove_from_accounts_list, hm]

theorem remove_from_accounts_list_default (a : String) (s : Store) :
    (remove_from_accounts_list a s).defaultAccount = s.defaultAccount := by
  by_cases hm : a ∈ list_accounts s <;> simp [remove_from_accounts_list, hm]

theorem list_accounts_set_list (s : Store) (l : List String) :
    list_accounts { s with accountsList := some l } = l := rfl

theorem list_accounts_set_default_opt (s : Store) (d : Option String) :
    list_accounts { s with defaultAccount := d } = list_accounts s := rfl

theorem remove_from_accounts_list_accounts (a : String) (s : Store) :
    list_accounts (remove_from_accounts_list a s) = (list_accounts s).erase a := by
  by_cases hm : a ∈ list_accounts s
  · simp only [remove_from_accounts_list]
    rw [if_pos hm, list_accounts_set_list]
  · simp only [remove_from_accounts_list]
    rw [if_neg hm, List.erase_of_not_mem hm]

theorem reassign_default_after_delete_records (a : String) (s : Store) :
    (reassign_default_after_delete a s).records = s.records := by
  unfold reassign_default_after_delete
  by_cases h : s.defaultAccount = some a
  · rcases hl : list_accounts s with _ | ⟨b, rest⟩ <;> simp [h, hl, set_default_account]
  · simp [h]

theorem reassign_default_after_delete_accounts (a : String) (s : Store) :
    list_accounts (reassign_default_after_delete a s) = list_accounts s := by
  unfold reassign_default_after_delete
  by_cases h : s.defaultAccount = some a
  · rw [if_pos h]
    rcases hl : list_accounts s with _ | ⟨b, rest⟩
    · exact (list_accounts_set_default_opt s none).trans hl
    · exact (list_accounts_set_default s b).trans hl
  · rw [if_neg h]

theorem reassign_default_after_delete_default (a : String) (s : Store) :
    (reassign_default_after_delete a s).defaultAccount =
      if s.defaultAccount = some a then
        match list_accounts s with
        | [] => none
        | b :: _ => some b
      else s.defaultAccount := by
  unfold reassign_default_after_delete
  by_cases h : s.defaultAccount = some a
  · rcases hl : list_accounts s with _ | ⟨b, rest⟩ <;> simp [h, hl, set_default_account]
  · simp [h]

/-- What `delete_credentials` does to each keyring component when the
record of a (genuine, nonempty) identity is present: the record is
erased, the registry entry removed, and the default pointer reassigned
exactly when it named the deleted identity. -/
theorem delete_credentials_spec (a : String) (ha : a ≠ "") (s : Store) (c : Cred)
    (hrec : getKey s.records a = some c) :
    (delete_credentials (some a) s).records = eraseKey s.records a
    ∧ list_accounts (delete_credentials (some a) s) = (list_accounts s).erase a
    ∧ (delete_credentials (some a) s).defaultAccount =
        (if s.defaultAccount = some a then
          match (list_accounts s).erase a with
          | [] => none
          | b :: _ => some b
        else s.defaultAccount) := by
  have hbody : delete_credentials (some a) s =
      reassign_default_after_delete a
        (remove_from_accounts_list a { s with records := eraseKey s.records a }) := by
    simp [delete_credentials, strTruthy_some_of_ne ha, hrec]
  refine ⟨?_, ?_, ?_⟩ <;> rw [hbody]
  · rw [reassign_default_after_delete_records, remove_from_accounts_list_records]
  · rw [reassign_default_after_delete_accounts, remove_from_accounts_list_accounts,
      list_accounts_records]
  · rw [reassign_default_after_delete_default, remove_from_accounts_list_default,
      remove_from_accounts_list_accounts, list_accounts_records]

/-- C6: deleting an identity whose record is stored removes the record
and the registry entry; when the deleted identity was the default, the
default is reassigned to the first remaining registered account, or
cleared when none remain. -/
theorem C6_delete_default_reassignment (a : String) (ha : a ≠ "") (s : Store)
    (c : Cred) (hrec : getKey s.records a = some c)
    (hnd : (list_accounts s).Nodup) :
    getKey (delete_credentials (some a) s).records a = none
    ∧ a ∉ list_accounts (delete_credentials (some a) s)
    ∧ (s.defaultAccount = some a →
        (list_accounts (delete_credentials (some a) s) = [] →
          (delete_credentials (some a) s).defaultAccount = none)
        ∧ (∀ b rest, list_accounts (delete_credentials (some a) s) = b :: rest →
          (delete_credentials (some a) s).defaultAccount = some b)) := by
  obtain ⟨hr, hl, hd⟩ := delete_credentials_spec a ha s c hrec
  refine ⟨?_, ?_, ?_⟩
  · rw [hr]; exact getKey_eraseKey s.records a
  · rw [hl]
    intro hmem
    exact absurd ((hnd.mem_erase_iff).mp hmem).1 (by simp)
  · intro hdef
    constructor
    · intro hnil
      rw [hl] at hnil
      rw [hd, if_pos hdef, hnil]
    · intro b rest hcons
      rw [hl] at hcons
      rw [hd, if_pos hdef, hcons]

/-- C6 (witness): the spec's example — registry `[a, b]` with default
`a`; deleting `a` leaves registry `[b]` and default `b` (shown here with
the keys swapped: default `b@x.com` deleted, reassigned to the remaining
`a@x.com`). -/
theorem C6_delete_default_reassignment_witness :
    (delete_credentials (some "b@x.com")
        ⟨[("b@x.com", ⟨some "t", some "r", false⟩)], none,
          some ["a@x.com", "b@x.com"], some "b@x.com"⟩).defaultAccount
      = some "a@x.com" := by
  have h := (C6_delete_default_reassignment "b@x.com" (by decide)
    ⟨[("b@x.com", ⟨some "t", some "r", false⟩)], none,
      some ["a@x.com", "b@x.com"], some "b@x.com"⟩
    ⟨some "t", some "r", false⟩ rfl (by decide)).2.2 rfl
  exact h.2 "a@x.com" [] (by decide)

/-! ## Claims about the auth layer -/

theorem migrate_legacy_credentials_none (migEmail : Option String) (s : Store)
    (hleg : s.legacy = none) :
    migrate_legacy_credentials migEmail s = (s, false) := by
  simp [migrate_legacy_credentials, hleg]

/-- C4: `get_credentials` for an identity (no legacy record pending
migration): an absent record gives `none` with the store untouched; a
non-expired record is returned unchanged with the store untouched; an
expired record with a refresh token whose refresh call fails is deleted
for that identity and `none` is returned. -/
theorem C4_get_credentials_lifecycle (migEmail : Option String)
    (refreshRes : Option Cred) (env : Option String) (a : String) (s : Store)
    (hleg : s.legacy = none) (ha : a ≠ "") :
    (getKey s.records a = none →
      get_credentials migEmail refreshRes env (some a) s = (none, s))
    ∧ (∀ c, getKey s.records a = some c → c.expired = false →
        get_credentials migEmail refreshRes env (some a) s = (some c, s))
    ∧ (∀ c, getKey s.records a = some c → c.expired = true →
        strTruthy c.refreshToken = true → refreshRes = none →
        get_credentials migEmail refreshRes env (some a) s
          = (none, delete_credentials (some a) s)
        ∧ getKey (get_credentials migEmail refreshRes env (some a) s).2.records a
          = none) := by
  have hmig := migrate_legacy_credentials_none migEmail s hleg
  have hT := strTruthy_some_of_ne ha
  refine ⟨?_, ?_, ?_⟩
  · intro h
    simp [get_credentials, hmig, load_credentials, hT, h]
  · intro c hc hexp
    simp [get_credentials, hmig, load_credentials, hT, hc, hexp]
  · intro c hc hexp hrt hres
    have hmain : get_credentials migEmail refreshRes env (some a) s
        = (none, delete_credentials (some a) s) := by
      simp [get_credentials, hmig, load_credentials, hT, hc, hexp, hrt, hres]
    refine ⟨hmain, ?_⟩
    rw [hmain]
    show getKey (delete_credentials (some a) s).records a = none
    rw [(delete_credentials_spec a ha s c hc).1]
    exact getKey_eraseKey s.records a

/-- C4 (witness): an expired record with a refresh token whose refresh
call fails is deleted and `none` is produced. -/
theorem C4_get_credentials_lifecycle_witness :
    (get_credentials none none none (some "a@x.com")
        ⟨[("a@x.com", ⟨some "t", some "r", true⟩)], none, some ["a@x.com"],
          some "a@x.com"⟩).1 = none
    ∧ getKey (get_credentials none none none (some "a@x.com")
        ⟨[("a@x.com", ⟨some "t", some "r", true⟩)], none, some ["a@x.com"],
          some "a@x.com"⟩).2.records "a@x.com" = none := by
  have h := (C4_get_credentials_lifecycle none none none "a@x.com"
    ⟨[("a@x.com", ⟨some "t", some "r", true⟩)], none, some ["a@x.com"],
      some "a@x.com"⟩ rfl (by decide)).2.2
    ⟨some "t", some "r", true⟩ rfl rfl (by decide) rfl
  exact ⟨by rw [h.1], h.2⟩

/-- C1: `resolve_account` follows the four-step priority chain.  A
(nonempty) explicit identity wins: unregistered raises
`AccountNotFound` — even on an empty registry — and registered is
returned, regardless of environment and default.  With no explicit
override, a (nonempty) environment identity behaves the same way.  With
neither, a nonempty registered default is returned, else the first
registered account.  `NoAccountConfigured` is raised exactly when the
registry is empty and neither an explicit nor an environment override
was given (Python truthiness: `None` or `""` count as not given). -/
theorem C1_resolve_account_priority (env explicit_account : Option String)
    (s : Store) :
    (∀ e, explicit_account = some e → e ≠ "" →
        (e ∉ list_accounts s →
          resolve_account env explicit_account s
            = .error (.accountNotFound e (list_accounts s)))
        ∧ (e ∈ list_accounts s →
          resolve_account env explicit_account s = .ok e))
    ∧ (strTruthy explicit_account = false → ∀ e, env = some e → e ≠ "" →
        (e ∉ list_accounts s →
          resolve_account env explicit_account s
            = .error (.accountNotFound e (list_accounts s)))
        ∧ (e ∈ list_accounts s →
          resolve_account env explicit_account s = .ok e))
    ∧ (strTruthy explicit_account = false → strTruthy env = false →
        ∀ d, s.defaultAccount = some d → d ≠ "" → d ∈ list_accounts s →
          resolve_account env explicit_account s = .ok d)
    ∧ (strTruthy explicit_account = false → strTruthy env = false →
        (∀ d, s.defaultAccount = some d → d = "" ∨ d ∉ list_accounts s) →
        ∀ a rest, list_accounts s = a :: rest →
          resolve_account env explicit_account s = .ok a)
    ∧ (resolve_account env explicit_account s = .error .noAccountConfigured ↔
        list_accounts s = [] ∧ strTruthy explicit_account = false
          ∧ strTruthy env = false) := by
  refine ⟨?_, ?_, ?_, ?_, ?_⟩
  · rintro e rfl he
    have hT := strTruthy_some_of_ne he
    constructor <;> intro hm <;> simp [resolve_account, hT, hm]
  · rintro hx e rfl he
    have hT := strTruthy_some_of_ne he
    constructor <;> intro hm <;> simp [resolve_account, hx, hT, hm]
  · intro hx hv d hd hne hm
    simp [resolve_account, hx, hv, get_default_account, hd, hne, hm]
  · intro hx hv hdef a rest hacc
    cases hd : s.defaultAccount with
    | none =>
      simp [resolve_account, hx, hv, get_default_account, hd, hacc,
        first_available]
    | some d =>
      rcases hdef d hd with h | h
      · subst h
        simp [resolve_account, hx, hv, get_default_account, hd, hacc,
          first_available]
      · rw [hacc] at h
        simp [resolve_account, hx, hv, get_default_account, hd, hacc,
          first_available, h]
  · constructor
    · intro h
      cases hxe : strTruthy explicit_account with
      | true =>
        exfalso
        simp [resolve_account, hxe] at h
        split at h <;> simp_all
      | false =>
        cases hve : strTruthy env with
        | true =>
          exfalso
          simp [resolve_account, hxe, hve] at h
          split at h <;> simp_all
        | false =>
          refine ⟨?_, rfl, rfl⟩
          rcases hl : list_accounts s with _ | ⟨a0, rest0⟩
          · rfl
          · exfalso
            cases hd : s.defaultAccount with
            | none =>
              simp only [resolve_account, hxe, hve, get_default_account, hd,
                Bool.false_eq_true, if_false] at h
              rw [hl] at h
              simp [first_available] at h
            | some d =>
              by_cases hcond : d ≠ "" ∧ d ∈ list_accounts s
              · simp [resolve_account, hxe, hve, get_default_account, hd,
                  hcond] at h
              · have hfa : first_available (list_accounts s)
                    = .error .noAccountConfigured := by
                  simpa [resolve_account, hxe, hve, get_default_account, hd,
                    hcond] using h
                rw [hl] at hfa
                simp [first_available] at hfa
    · rintro ⟨hacc, hx, hv⟩
      cases hd : s.defaultAccount with
      | none =>
        simp [resolve_account, hx, hv, get_default_account, hd, hacc,
          first_available]
      | some d =>
        simp [resolve_account, hx, hv, get_default_account, hd, hacc,
          first_available]

/-- C1 (witness): an explicit unregistered identity on the empty
registry raises `AccountNotFound`; with no overrides at all the empty
registry raises `NoAccountConfigured`. -/
theorem C1_resolve_account_priority_witness :
    resolve_account none (some "c@x.com") emptyStore
      = .error (.accountNotFound "c@x.com" [])
    ∧ resolve_account none none emptyStore = .error .noAccountConfigured := by
  constructor
  · exact ((C1_resolve_account_priority none (some "c@x.com") emptyStore).1
      "c@x.com" rfl (by decide)).1 (by decide)
  · exact (C1_resolve_account_priority none none emptyStore).2.2.2.2.mpr
      ⟨rfl, rfl, rfl⟩

/-- C9 (counterexample): with registry `[a, b]`, default `b`, and a
valid credential stored only for `b`, `is_authenticated` with no
identity returns false, although the resolution chain resolves to `b`,
for which a valid credential is produced — the code checks the first
registered account, not the resolved one. -/
theorem C9_is_authenticated_cex :
    (is_authenticated none none none none
        ⟨[("b@x.com", ⟨some "t", some "r", false⟩)], none,
          some ["a@x.com", "b@x.com"], some "b@x.com"⟩).1 = false
    ∧ resolve_account none none
        ⟨[("b@x.com", ⟨some "t", some "r", false⟩)], none,
          some ["a@x.com", "b@x.com"], some "b@x.com"⟩ = .ok "b@x.com"
    ∧ (get_credentials none none none (some "b@x.com")
        ⟨[("b@x.com", ⟨some "t", some "r", false⟩)], none,
          some ["a@x.com", "b@x.com"], some "b@x.com"⟩).1
        = some ⟨some "t", some "r", false⟩
    ∧ Cred.valid ⟨some "t", some "r", false⟩ = true :=
  ⟨rfl, rfl, rfl, rfl⟩

/-- C9 (amended): `is_authenticated` with a (nonempty) identity returns
true iff `get_credentials` produces a valid (token present, non-expired)
credential for that identity; with no identity it checks the FIRST
registered account — not the account the resolution chain would pick —
and returns false on an empty registry. -/
theorem C9_is_authenticated_amended (migEmail : Option String)
    (refreshRes : Option Cred) (env : Option String) (s : Store) :
    (∀ a : String, a ≠ "" →
      ((is_authenticated migEmail refreshRes env (some a) s).1 = true ↔
        ∃ c, (get_credentials migEmail refreshRes env (some a) s).1 = some c
          ∧ c.valid = true))
    ∧ (list_accounts s = [] →
        (is_authenticated migEmail refreshRes env none s).1 = false)
    ∧ ((is_authenticated migEmail refreshRes env none s).1 = true ↔
        ∃ a rest c, list_accounts s = a :: rest
          ∧ (get_credentials migEmail refreshRes env (some a) s).1 = some c
          ∧ c.valid = true) := by
  refine ⟨?_, ?_, ?_⟩
  · intro a ha
    have hT := strTruthy_some_of_ne ha
    cases hg : (get_credentials migEmail refreshRes env (some a) s).1 with
    | none => simp [is_authenticated, hT, hg]
    | some c => simp [is_authenticated, hT, hg]
  · intro hacc
    simp [is_authenticated, strTruthy, hacc]
  · cases hacc : list_accounts s with
    | nil => simp [is_authenticated, strTruthy, hacc]
    | cons a0 rest0 =>
      cases hg : (get_credentials migEmail refreshRes env (some a0) s).1 with
      | none =>
        simp only [is_authenticated, strTruthy, hacc, hg]
        constructor
        · intro h
          exact absurd h (by simp)
        · rintro ⟨a, rest, c, hcons, hgc, hval⟩
          obtain ⟨rfl, rfl⟩ : a0 = a ∧ rest0 = rest := by
            simpa using hcons
          rw [hg] at hgc
          exact absurd hgc (by simp)
      | some c =>
        simp only [is_authenticated, strTruthy, hacc, hg]
        constructor
        · intro h
          exact ⟨a0, rest0, c, rfl, hg, h⟩
        · rintro ⟨a, rest, c1, hcons, hgc, hval⟩
          obtain ⟨rfl, rfl⟩ : a0 = a ∧ rest0 = rest := by
            simpa using hcons
          rw [hg] at hgc
          obtain rfl : c = c1 := by simpa using hgc
          exact hval

/-- C9 (witness for the amended claim): an identity with a stored valid
credential makes `is_authenticated` true, and with the registry `[a]`
the no-identity form checks `a` and is true as well. -/
theorem C9_is_authenticated_amended_witness :
    (is_authenticated none none none (some "a@x.com")
        ⟨[("a@x.com", ⟨some "t", none, false⟩)], none, some ["a@x.com"],
          some "a@x.com"⟩).1 = true
    ∧ (is_authenticated none none none none
        ⟨[("a@x.com", ⟨some "t", none, false⟩)], none, some ["a@x.com"],
          some "a@x.com"⟩).1 = true := by
  constructor
  · exact ((C9_is_authenticated_amended none none none
      ⟨[("a@x.com", ⟨some "t", none, false⟩)], none, some ["a@x.com"],
        some "a@x.com"⟩).1 "a@x.com" (by decide)).mpr
      ⟨⟨some "t", none, false⟩, by decide, by decide⟩
  · exact (C9_is_authenticated_amended none none none
      ⟨[("a@x.com", ⟨some "t", none, false⟩)], none, some ["a@x.com"],
        some "a@x.com"⟩).2.2.mpr
      ⟨"a@x.com", [], ⟨some "t", none, false⟩, by decide, by decide, by decide⟩

end GmailCli
